import Mathlib

/-!
Verification of the simulation core of the "Humanity Protocol" blob game.

The development shallowly embeds the relevant parts of the TypeScript
source.  JavaScript numbers are modelled as exact rationals (`ℚ`), except
where the source computes square roots (distances, cell radii), which are
modelled by `Real.sqrt` over `ℝ`.  Entity ids (strings in the source) are
modelled as naturals.
-/

/-! ## Balance-meter store (`src/stores/gameStore.ts`) -/

/-- State of the zustand game store: the two balance meters, the session
score and the terminal flags (`src/stores/gameStore.ts`, lines 59-68). -/
structure GameStoreState where
  humanity : ℚ
  kiControl : ℚ
  score : ℚ
  isGameRunning : Bool
  isGameWon : Bool
  isGameLost : Bool
deriving DecidableEq

/-- Source `endGame(won)` (gameStore.ts lines 102-108): stops the session and sets
the win/lose flags. -/
def endGame (won : Bool) (s : GameStoreState) : GameStoreState :=
  { s with isGameRunning := false, isGameWon := won, isGameLost := !won }

/-- Source `checkWinLoseConditions` (gameStore.ts lines 172-179): run after every
meter mutation.  Win on `humanity >= 85 && kiControl <= 20`, else loss on
`humanity <= 0 || kiControl >= 100`, else no change. -/
def checkWinLoseConditions (s : GameStoreState) : GameStoreState :=
  if 85 ≤ s.humanity ∧ s.kiControl ≤ 20 then
    endGame true s
  else if s.humanity ≤ 0 ∨ 100 ≤ s.kiControl then
    endGame false s
  else
    s

/-- Source `updateHumanity(amount)` (gameStore.ts lines 71-76): clamp the new value
into [0,100] with `Math.max(0, Math.min(100, humanity + amount))`, then run
the terminal-condition evaluator. -/
def updateHumanity (amount : ℚ) (s : GameStoreState) : GameStoreState :=
  checkWinLoseConditions { s with humanity := max 0 (min 100 (s.humanity + amount)) }

/-- Source `updateKIControl(amount)` (gameStore.ts lines 78-83). -/
def updateKIControl (amount : ℚ) (s : GameStoreState) : GameStoreState :=
  checkWinLoseConditions { s with kiControl := max 0 (min 100 (s.kiControl + amount)) }

/-- Source `updateScore(amount)` (gameStore.ts lines 85-89): the accumulated score
is floored at 0 via `Math.max(0, score + amount)`. -/
def updateScore (amount : ℚ) (s : GameStoreState) : GameStoreState :=
  { s with score := max 0 (s.score + amount) }

/-- The display-status classifier `getBalanceStatus`
(`src/utils/balanceMechanics.ts`, lines 70-124).  Only the returned status
tag is modelled; message and color are presentation-only. -/
inductive BalanceStatus where
  | harmony
  | unstable
  | crisis
  | shutdown
deriving DecidableEq

/-- Source `getBalanceStatus()` (balanceMechanics.ts lines 70-124), as a function of
the current meter values.  The two final branches (imbalance ≥ 60 and the
default) both carry the `unstable` status tag and differ only in message. -/
def getBalanceStatus (humanity kiControl : ℚ) : BalanceStatus :=
  if 85 ≤ humanity ∧ kiControl ≤ 20 then .harmony
  else if kiControl = 0 then .shutdown
  else if humanity = 0 then .crisis
  else if 100 ≤ kiControl then .crisis
  else if 60 ≤ |humanity - kiControl| then .unstable
  else .unstable

/-- A balance event: a signed delta routed through `updateHumanity` or
through `updateKIControl` (the only mutators of the meters). -/
inductive BalanceEvent where
  | humanityDelta (amount : ℚ)
  | kiControlDelta (amount : ℚ)
deriving DecidableEq

/-- Apply one balance event through the store's named mutators. -/
def applyBalanceEvent (s : GameStoreState) (e : BalanceEvent) : GameStoreState :=
  match e with
  | .humanityDelta amount => updateHumanity amount s
  | .kiControlDelta amount => updateKIControl amount s

/-- Apply a sequence of balance events left to right. -/
def applyBalanceEvents (s : GameStoreState) (events : List BalanceEvent) : GameStoreState :=
  events.foldl applyBalanceEvent s

/-- Both meters lie within [0,100]. -/
def meterBounds (s : GameStoreState) : Prop :=
  0 ≤ s.humanity ∧ s.humanity ≤ 100 ∧ 0 ≤ s.kiControl ∧ s.kiControl ≤ 100

instance (s : GameStoreState) : Decidable (meterBounds s) := by
  unfold meterBounds; infer_instance

theorem checkWinLose_humanity (s : GameStoreState) :
    (checkWinLoseConditions s).humanity = s.humanity := by
  unfold checkWinLoseConditions endGame
  split <;> [rfl; skip]
  split <;> rfl

theorem checkWinLose_kiControl (s : GameStoreState) :
    (checkWinLoseConditions s).kiControl = s.kiControl := by
  unfold checkWinLoseConditions endGame
  split <;> [rfl; skip]
  split <;> rfl

theorem clamp_mem_bounds (x : ℚ) : 0 ≤ max 0 (min 100 x) ∧ max 0 (min 100 x) ≤ 100 := by
  constructor
  · exact le_max_left 0 (min 100 x)
  · exact max_le (by norm_num) (min_le_left 100 x)

theorem applyBalanceEvent_bounds (s : GameStoreState) (e : BalanceEvent)
    (h : meterBounds s) : meterBounds (applyBalanceEvent s e) := by
  rcases h with ⟨h1, h2, h3, h4⟩
  cases e with
  | humanityDelta amount =>
    unfold applyBalanceEvent updateHumanity meterBounds
    rw [checkWinLose_humanity, checkWinLose_kiControl]
    exact ⟨(clamp_mem_bounds _).1, (clamp_mem_bounds _).2, h3, h4⟩
  | kiControlDelta amount =>
    unfold applyBalanceEvent updateKIControl meterBounds
    rw [checkWinLose_humanity, checkWinLose_kiControl]
    exact ⟨h1, h2, (clamp_mem_bounds _).1, (clamp_mem_bounds _).2⟩

/-- Claim C2: for every sequence of balance events (each applying any
positive or negative delta through `updateHumanity` or `updateKIControl`),
both `humanity` and `kiControl` remain within [0,100] after every mutation.
(Every prefix of a sequence is itself a sequence, so closure of the bounds
under arbitrary sequences gives the bound after every mutation.) -/
theorem meters_within_bounds (events : List BalanceEvent) (s : GameStoreState)
    (h : meterBounds s) : meterBounds (applyBalanceEvents s events) := by
  induction events generalizing s with
  | nil => exact h
  | cons e rest ih => exact ih _ (applyBalanceEvent_bounds s e h)

/-- Witness for C2 at a concrete state and event sequence. -/
theorem meters_within_bounds_witness :
    meterBounds (applyBalanceEvents ⟨50, 50, 0, true, false, false⟩
      [.humanityDelta (-200), .kiControlDelta 1000, .humanityDelta 5]) :=
  meters_within_bounds _ ⟨50, 50, 0, true, false, false⟩ (by decide)

/-- Counterexample to claim C1 as stated: driving `kiControl` to exactly 0
(humanity 50) does not make the after-mutation terminal evaluator report a
win — `checkWinLoseConditions` has no shutdown branch. -/
theorem shutdown_not_reported_after_mutation :
    (updateKIControl (-10) ⟨50, 10, 0, true, false, false⟩).kiControl = 0 ∧
    (updateKIControl (-10) ⟨50, 10, 0, true, false, false⟩).isGameWon = false := by
  constructor <;>
    norm_num [updateKIControl, checkWinLoseConditions, endGame, max_def, min_def]

/-- Claim C1 (amended): after a mutation the terminal evaluator
`checkWinLoseConditions` reports a win iff `humanity ≥ 85 ∧ kiControl ≤ 20`
and a loss iff `humanity ≤ 0 ∨ kiControl ≥ 100`; `kiControl = 0` alone is
not a terminal win there.  The shutdown outcome exists only in the
display-only classifier `getBalanceStatus`, which reports `shutdown` iff
`kiControl = 0` and the harmony condition fails. -/
theorem terminal_evaluator_characterization (s : GameStoreState)
    (hW : s.isGameWon = false) (hL : s.isGameLost = false) :
    ((checkWinLoseConditions s).isGameWon = true ↔ 85 ≤ s.humanity ∧ s.kiControl ≤ 20) ∧
    ((checkWinLoseConditions s).isGameLost = true ↔ s.humanity ≤ 0 ∨ 100 ≤ s.kiControl) ∧
    (getBalanceStatus s.humanity s.kiControl = .shutdown ↔
      s.kiControl = 0 ∧ ¬(85 ≤ s.humanity ∧ s.kiControl ≤ 20)) := by
  refine ⟨?_, ?_, ?_⟩
  · unfold checkWinLoseConditions endGame
    split
    · simpa using ‹_›
    · split <;> simpa [hW] using ‹¬(85 ≤ s.humanity ∧ s.kiControl ≤ 20)›
  · unfold checkWinLoseConditions endGame
    split
    · rename_i hwin
      simp only [hL, Bool.not_true]
      constructor
      · intro habs; exact absurd habs (by simp)
      · rintro (hh | hk)
        · exact absurd (le_trans hwin.1 hh) (by norm_num)
        · exact absurd (le_trans hk hwin.2) (by norm_num)
    · split
      · simpa using ‹s.humanity ≤ 0 ∨ 100 ≤ s.kiControl›
      · simpa [hL] using ‹¬(s.humanity ≤ 0 ∨ 100 ≤ s.kiControl)›
  · unfold getBalanceStatus
    by_cases hharm : 85 ≤ s.humanity ∧ s.kiControl ≤ 20
    · rw [if_pos hharm]
      constructor
      · intro habs; exact absurd habs (by simp)
      · rintro ⟨-, hnot⟩; exact absurd hharm hnot
    · rw [if_neg hharm]
      by_cases hk0 : s.kiControl = 0
      · rw [if_pos hk0]
        exact ⟨fun _ => ⟨hk0, hharm⟩, fun _ => rfl⟩
      · rw [if_neg hk0]
        constructor
        · intro habs
          exfalso
          split at habs
          · exact BalanceStatus.noConfusion habs
          · split at habs
            · exact BalanceStatus.noConfusion habs
            · split at habs <;> exact BalanceStatus.noConfusion habs
        · rintro ⟨hk, -⟩; exact absurd hk hk0

/-- Witness for C1's amended theorem at a concrete state. -/
theorem terminal_evaluator_characterization_witness :
    ((checkWinLoseConditions ⟨50, 0, 0, true, false, false⟩).isGameWon = true ↔
      85 ≤ (50 : ℚ) ∧ (0 : ℚ) ≤ 20) ∧
    ((checkWinLoseConditions ⟨50, 0, 0, true, false, false⟩).isGameLost = true ↔
      (50 : ℚ) ≤ 0 ∨ 100 ≤ (0 : ℚ)) ∧
    (getBalanceStatus 50 0 = .shutdown ↔ (0 : ℚ) = 0 ∧ ¬(85 ≤ (50 : ℚ) ∧ (0 : ℚ) ≤ 20)) :=
  terminal_evaluator_characterization ⟨50, 0, 0, true, false, false⟩ rfl rfl

/-- Apply a sequence of `updateScore` calls left to right. -/
def applyScoreUpdates (s : GameStoreState) (amounts : List ℚ) : GameStoreState :=
  amounts.foldl (fun t amount => updateScore amount t) s

/-- Claim C10: for every sequence of `updateScore` calls with arbitrary
positive or negative amounts, the session score remains ≥ 0 after every
call — the store clamps the accumulated score at a floor of 0. -/
theorem score_nonneg_invariant (amounts : List ℚ) (s : GameStoreState)
    (h : 0 ≤ s.score) : 0 ≤ (applyScoreUpdates s amounts).score := by
  induction amounts generalizing s with
  | nil => exact h
  | cons a rest ih =>
    exact ih { s with score := max 0 (s.score + a) } (le_max_left _ _)

/-- Witness for C10 at a concrete state and amount sequence. -/
theorem score_nonneg_invariant_witness :
    0 ≤ (applyScoreUpdates ⟨50, 50, 0, true, false, false⟩ [3, -1000, 25]).score :=
  score_nonneg_invariant [3, -1000, 25] ⟨50, 50, 0, true, false, false⟩ (by norm_num)

/-! ## Player split mechanics (`src/utils/entities.ts`, class `PlayerCell`) -/

/-- The split-relevant state of a `PlayerCell` (entities.ts lines 246-262):
the main cell's mass, the masses of the split cells (in list order), the
split level and the cooldown fields.  Positions, animations and boosts do
not influence mass bookkeeping or cooldown assignment and are omitted;
`size` is kept equal to `sqrt(mass)*2` by `updateSizeFromMass` after every
mass change and is therefore derived, not stored. -/
structure PlayerSplitState where
  mass : ℚ
  splitCells : List ℚ
  splitLevel : ℕ
  splitCooldown : ℚ
  fusionCooldown : ℚ
  splitDuration : ℚ
deriving DecidableEq

/-- Source `maxSplitLevel` (entities.ts line 253): maximum 4 splits. -/
def maxSplitLevel : ℕ := 4

/-- Source `getSplitCooldown()` (entities.ts lines 615-618), as a function of the
`splitLevel` it reads: `splitLevel > 0 ? 7500 : 0`. -/
def getSplitCooldown (splitLevel : ℕ) : ℚ :=
  if 0 < splitLevel then 7500 else 0

/-- Source `getFusionTime()` (entities.ts lines 620-624), as a function of the
`splitLevel` it reads: `15000 * Math.pow(2, splitLevel)`. -/
def getFusionTime (splitLevel : ℕ) : ℚ :=
  15000 * 2 ^ splitLevel

/-- Source `PlayerCell.split()` (entities.ts lines 478-575).  Returns `none` when
the guard refuses the split (cooldown active, mass below the progressive
requirement `40 + 20*level`, cell cap `2^(level+1)` reached, or max level
reached).  On success the main cell and every existing split cell halve
their mass and each spawns one new cell of the same halved mass; the new
cells are appended after the existing ones, with the main cell's spawn
last.  Then `splitLevel` is incremented and — after the increment —
`splitCooldown`, `fusionCooldown` and `splitDuration` are assigned from
`getSplitCooldown()` / `getFusionTime()`. -/
def PlayerSplitState.split (p : PlayerSplitState) : Option PlayerSplitState :=
  if 0 < p.splitCooldown ∨ p.mass < 40 + p.splitLevel * 20 ∨
      2 ^ (p.splitLevel + 1) ≤ p.splitCells.length ∨ maxSplitLevel ≤ p.splitLevel then
    none
  else
    let splitMass := p.mass / 2
    let halvedCells := p.splitCells.map (fun m => m / 2)
    let newSplitCells := p.splitCells.map (fun m => m / 2)
    let newLevel := p.splitLevel + 1
    some
      { mass := splitMass
        splitCells := halvedCells ++ newSplitCells ++ [splitMass]
        splitLevel := newLevel
        splitCooldown := getSplitCooldown newLevel
        fusionCooldown := getFusionTime newLevel
        splitDuration := getFusionTime newLevel }

/-- Source `PlayerCell.getTotalMass()` (entities.ts lines 853-855): main cell mass
plus the sum of all split cell masses. -/
def PlayerSplitState.getTotalMass (p : PlayerSplitState) : ℚ :=
  p.mass + p.splitCells.sum

theorem sum_map_half (l : List ℚ) : (l.map (fun m => m / 2)).sum = l.sum / 2 := by
  induction l with
  | nil => simp
  | cons x rest ih => simp [ih]; ring

/-- Claim C3: whenever `split()` succeeds, the total mass summed over the
main cell and all split cells is unchanged — each pre-existing body halves
its mass and spawns one new body carrying the other half. -/
theorem split_conserves_total_mass (p q : PlayerSplitState)
    (h : p.split = some q) : q.getTotalMass = p.getTotalMass := by
  unfold PlayerSplitState.split at h
  split at h
  · exact absurd h (by simp)
  · simp only [Option.some.injEq] at h
    subst h
    unfold PlayerSplitState.getTotalMass
    simp only [List.sum_append, List.sum_cons, List.sum_nil, sum_map_half]
    ring

theorem split_first_eval :
    PlayerSplitState.split ⟨40, [], 0, 0, 0, 15000⟩ =
      some ⟨20, [20], 1, 7500, 30000, 30000⟩ := by
  norm_num [PlayerSplitState.split, maxSplitLevel, getSplitCooldown, getFusionTime]

/-- Witness for C3: a first split of an unsplit cell of mass 40. -/
theorem split_conserves_total_mass_witness :
    PlayerSplitState.getTotalMass ⟨20, [20], 1, 7500, 30000, 30000⟩ =
      PlayerSplitState.getTotalMass ⟨40, [], 0, 0, 0, 15000⟩ :=
  split_conserves_total_mass ⟨40, [], 0, 0, 0, 15000⟩ ⟨20, [20], 1, 7500, 30000, 30000⟩
    split_first_eval

/-- Counterexample to claim C4 as stated: the very first split (level 0 → 1)
sets `splitCooldown` to 7500 ms, not 0, and `fusionCooldown` to 30000 ms,
not `baseFusionTime = 15000` — both cooldowns are computed from the
already-incremented `splitLevel`. -/
theorem first_split_cooldown_not_zero :
    PlayerSplitState.split ⟨40, [], 0, 0, 0, 15000⟩ =
      some ⟨20, [20], 1, 7500, 30000, 30000⟩ ∧
    (7500 : ℚ) ≠ 0 ∧ (30000 : ℚ) ≠ 15000 * 2 ^ (0 : ℕ) :=
  ⟨split_first_eval, by norm_num, by norm_num⟩

/-- Claim C4 (amended): after a successful `split()` from level `L`, the new
level is `L + 1` and both cooldowns are computed from the post-increment
level: `splitCooldown` is the fixed constant 7.5 s for every split
(including the first, because `splitLevel++` happens before
`getSplitCooldown()` is read), and `fusionCooldown` is
`baseFusionTime (15 s) × 2^(L+1)`, doubling per level. -/
theorem split_sets_cooldowns (p q : PlayerSplitState)
    (h : p.split = some q) :
    q.splitLevel = p.splitLevel + 1 ∧
    q.splitCooldown = 7500 ∧
    q.fusionCooldown = 15000 * 2 ^ (p.splitLevel + 1) := by
  unfold PlayerSplitState.split at h
  split at h
  · exact absurd h (by simp)
  · simp only [Option.some.injEq] at h
    subst h
    refine ⟨rfl, ?_, rfl⟩
    unfold getSplitCooldown
    rw [if_pos (Nat.succ_pos _)]

/-- Witness for C4's amended theorem at the first-split input. -/
theorem split_sets_cooldowns_witness :
    (1 : ℕ) = 0 + 1 ∧ (7500 : ℚ) = 7500 ∧ (30000 : ℚ) = 15000 * 2 ^ (0 + 1) := by
  have h := split_sets_cooldowns ⟨40, [], 0, 0, 0, 15000⟩ ⟨20, [20], 1, 7500, 30000, 30000⟩
    split_first_eval
  simpa using h

/-! ## Eat dominance (`src/utils/entities.ts`, `Cell.canEat`) -/

/-- Source `Cell.canEat(otherCell)` (entities.ts lines 233-235):
`this.mass > otherCell.mass * 1.1` — the eater must be 10% heavier. -/
def canEat (mass otherMass : ℚ) : Bool :=
  otherMass * 1.1 < mass

/-- Claim C5: cell A can eat cell B iff `A.mass > B.mass * 1.1`; for
positive masses mutual dominance is impossible (if A can eat B then B
cannot eat A), and a cell can never eat an equal-mass cell. -/
theorem canEat_dominance_asymmetry (a b : ℚ) :
    (canEat a b = true ↔ b * 1.1 < a) ∧
    (0 < a → 0 < b → canEat a b = true → canEat b a = false) ∧
    (0 < a → canEat a a = false) := by
  refine ⟨by simp [canEat], ?_, ?_⟩
  · intro _ hb hab
    rw [canEat, decide_eq_true_eq] at hab
    rw [canEat, decide_eq_false_iff_not]
    intro hba
    nlinarith
  · intro ha
    rw [canEat, decide_eq_false_iff_not]
    intro haa
    nlinarith

/-- Witness for C5 at concrete masses 5 and 3. -/
theorem canEat_dominance_asymmetry_witness :
    canEat 5 3 = true ∧ canEat 3 5 = false ∧ canEat 5 5 = false :=
  ⟨by norm_num [canEat],
   (canEat_dominance_asymmetry 5 3).2.1 (by norm_num) (by norm_num)
     (by norm_num [canEat]),
   (canEat_dominance_asymmetry 5 5).2.2 (by norm_num)⟩

/-! ## Geometry: the source's sqrt-based circle-overlap tests

`GameCanvas.tsx` compares the Euclidean distance
`Math.sqrt(dx*dx + dy*dy)` against sums of cell sizes, and every
mass-bearing cell keeps `size = Math.sqrt(mass) * 2` re-established by
`updateSizeFromMass` after each mass change (entities.ts lines 125-128),
so sizes are written below as functions of the stored mass.  The overlap
conditions are stated with `Real.sqrt`, exactly as computed; computable
`Decidable` instances are obtained by squaring the comparison twice, which
reduces it to rational arithmetic. -/

/-- Rational decision formula for `√A < c·√a + e·√b` (with `c, e ≥ 0` and
`a`, `b` pre-clamped at 0): the right-hand side must be positive and the
twice-squared comparison must hold. -/
def ratOverlapTest (A a b c e : ℚ) : Prop :=
  ((0 < c ∧ 0 < a) ∨ (0 < e ∧ 0 < b)) ∧
  (A - (c ^ 2 * a + e ^ 2 * b) < 0 ∨
    (A - (c ^ 2 * a + e ^ 2 * b)) ^ 2 < 4 * c ^ 2 * e ^ 2 * (a * b))

instance (A a b c e : ℚ) : Decidable (ratOverlapTest A a b c e) := by
  unfold ratOverlapTest; infer_instance

theorem real_sqrt_lt_combo {A a b c e : ℝ} (ha : 0 ≤ a) (hb : 0 ≤ b)
    (hc : 0 ≤ c) (he : 0 ≤ e) :
    Real.sqrt A < c * Real.sqrt a + e * Real.sqrt b ↔
      (((0 < c ∧ 0 < a) ∨ (0 < e ∧ 0 < b)) ∧
        (A - (c ^ 2 * a + e ^ 2 * b) < 0 ∨
          (A - (c ^ 2 * a + e ^ 2 * b)) ^ 2 < 4 * c ^ 2 * e ^ 2 * (a * b))) := by
  have hTnn : 0 ≤ c * Real.sqrt a + e * Real.sqrt b :=
    add_nonneg (mul_nonneg hc (Real.sqrt_nonneg a)) (mul_nonneg he (Real.sqrt_nonneg b))
  have hpos_iff : 0 < c * Real.sqrt a + e * Real.sqrt b ↔
      ((0 < c ∧ 0 < a) ∨ (0 < e ∧ 0 < b)) := by
    constructor
    · intro hT
      by_contra hcon
      push_neg at hcon
      obtain ⟨h1, h2⟩ := hcon
      have hca : c * Real.sqrt a = 0 := by
        rcases eq_or_lt_of_le hc with hc0 | hc0
        · rw [← hc0, zero_mul]
        · have haz : a ≤ 0 := h1 hc0
          rw [Real.sqrt_eq_zero'.mpr haz, mul_zero]
      have hcb : e * Real.sqrt b = 0 := by
        rcases eq_or_lt_of_le he with he0 | he0
        · rw [← he0, zero_mul]
        · have hbz : b ≤ 0 := h2 he0
          rw [Real.sqrt_eq_zero'.mpr hbz, mul_zero]
      rw [hca, hcb] at hT
      exact absurd hT (by norm_num)
    · rintro (⟨hc0, ha0⟩ | ⟨he0, hb0⟩)
      · have h3 : 0 < c * Real.sqrt a := mul_pos hc0 (Real.sqrt_pos.mpr ha0)
        have h4 : 0 ≤ e * Real.sqrt b := mul_nonneg he (Real.sqrt_nonneg b)
        linarith
      · have h3 : 0 < e * Real.sqrt b := mul_pos he0 (Real.sqrt_pos.mpr hb0)
        have h4 : 0 ≤ c * Real.sqrt a := mul_nonneg hc (Real.sqrt_nonneg a)
        linarith
  by_cases hT : 0 < c * Real.sqrt a + e * Real.sqrt b
  · rw [Real.sqrt_lt' hT]
    have hsq : (c * Real.sqrt a + e * Real.sqrt b) ^ 2
        = c ^ 2 * a + e ^ 2 * b + 2 * (c * e) * Real.sqrt (a * b) := by
      rw [add_sq, mul_pow, mul_pow, Real.sq_sqrt ha, Real.sq_sqrt hb, Real.sqrt_mul ha b]
      ring
    rw [hsq]
    have hsqM : (2 * (c * e) * Real.sqrt (a * b)) ^ 2 = 4 * c ^ 2 * e ^ 2 * (a * b) := by
      rw [mul_pow, Real.sq_sqrt (mul_nonneg ha hb)]
      ring
    constructor
    · intro h
      refine ⟨hpos_iff.mp hT, ?_⟩
      have h2 : A - (c ^ 2 * a + e ^ 2 * b) < 2 * (c * e) * Real.sqrt (a * b) := by linarith
      by_cases hLneg : A - (c ^ 2 * a + e ^ 2 * b) < 0
      · exact Or.inl hLneg
      · right
        push_neg at hLneg
        have hmul := mul_lt_mul'' h2 h2 hLneg hLneg
        calc (A - (c ^ 2 * a + e ^ 2 * b)) ^ 2
            = (A - (c ^ 2 * a + e ^ 2 * b)) * (A - (c ^ 2 * a + e ^ 2 * b)) := sq _
          _ < (2 * (c * e) * Real.sqrt (a * b)) * (2 * (c * e) * Real.sqrt (a * b)) := hmul
          _ = 4 * c ^ 2 * e ^ 2 * (a * b) := by rw [← sq]; exact hsqM
    · rintro ⟨-, hdisj⟩
      have hMR : 0 ≤ 2 * (c * e) * Real.sqrt (a * b) := by positivity
      rcases hdisj with hneg | hsq2
      · linarith
      · by_cases hLneg : A - (c ^ 2 * a + e ^ 2 * b) < 0
        · linarith
        · push_neg at hLneg
          have h4 : 2 * (c * e) * Real.sqrt (a * b)
              = Real.sqrt (4 * c ^ 2 * e ^ 2 * (a * b)) := by
            rw [show (4 : ℝ) * c ^ 2 * e ^ 2 * (a * b) = (2 * (c * e)) ^ 2 * (a * b) by ring,
              Real.sqrt_mul (by positivity) (a * b), Real.sqrt_sq (by positivity)]
          have h5 : A - (c ^ 2 * a + e ^ 2 * b) < Real.sqrt (4 * c ^ 2 * e ^ 2 * (a * b)) :=
            (Real.lt_sqrt hLneg).mpr hsq2
          rw [← h4] at h5
          linarith
  · have hTz : c * Real.sqrt a + e * Real.sqrt b = 0 := le_antisymm (not_lt.mp hT) hTnn
    rw [hTz]
    constructor
    · intro h
      exact absurd h (not_lt.mpr (Real.sqrt_nonneg A))
    · rintro ⟨hp, -⟩
      exact absurd (hpos_iff.mpr hp) hT

theorem rat_cast_sqrt_clamp (q : ℚ) :
    Real.sqrt (q : ℝ) = Real.sqrt ((max q 0 : ℚ) : ℝ) := by
  rcases le_total 0 q with h | h
  · rw [max_eq_left h]
  · rw [max_eq_right h]
    rw [Real.sqrt_eq_zero'.mpr (by exact_mod_cast h)]
    norm_num

theorem sqrt_lt_combo_rat (A a b c e : ℚ) (hc : 0 ≤ c) (he : 0 ≤ e) :
    (Real.sqrt (A : ℝ) < (c : ℝ) * Real.sqrt (a : ℝ) + (e : ℝ) * Real.sqrt (b : ℝ)) ↔
      ratOverlapTest A (max a 0) (max b 0) c e := by
  rw [rat_cast_sqrt_clamp a, rat_cast_sqrt_clamp b,
    real_sqrt_lt_combo (by positivity) (by positivity)
      (by exact_mod_cast hc) (by exact_mod_cast he)]
  unfold ratOverlapTest
  constructor
  · intro h; exact_mod_cast h
  · intro h; exact_mod_cast h

/-- Squared distance between two points, as summed inside the source's
`Math.sqrt(Math.pow(x1-x2, 2) + Math.pow(y1-y2, 2))`. -/
def dist2 (p q : ℚ × ℚ) : ℚ := (p.1 - q.1) ^ 2 + (p.2 - q.2) ^ 2

/-- The player-body-vs-bot collision test of the second `checkCollisions`
(GameCanvas.tsx lines 1767-1775): distance strictly below
`(playerCell.size + bot.size) * 0.7`, both sizes being `√mass * 2`. -/
def playerBotOverlap (p q : ℚ × ℚ) (mp mb : ℚ) : Prop :=
  Real.sqrt (dist2 p q : ℝ) <
    (Real.sqrt (mp : ℝ) * 2 + Real.sqrt (mb : ℝ) * 2) * (7 / 10)

theorem playerBotOverlap_iff (p q : ℚ × ℚ) (mp mb : ℚ) :
    playerBotOverlap p q mp mb ↔
      ratOverlapTest (dist2 p q) (max mp 0) (max mb 0) (7 / 5) (7 / 5) := by
  unfold playerBotOverlap
  rw [show ((Real.sqrt (mp : ℝ) * 2 + Real.sqrt (mb : ℝ) * 2) * (7 / 10) : ℝ)
      = ((7 / 5 : ℚ) : ℝ) * Real.sqrt (mp : ℝ) + ((7 / 5 : ℚ) : ℝ) * Real.sqrt (mb : ℝ) by
    push_cast; ring]
  exact sqrt_lt_combo_rat (dist2 p q) mp mb (7 / 5) (7 / 5) (by norm_num) (by norm_num)

instance (p q : ℚ × ℚ) (mp mb : ℚ) : Decidable (playerBotOverlap p q mp mb) :=
  decidable_of_iff _ (playerBotOverlap_iff p q mp mb).symm

/-- The bot-vs-bot collision test (GameCanvas.tsx lines 1846-1851):
distance strictly below `bot1.size + bot2.size`, both sizes `√mass * 2`. -/
def botBotOverlap (p q : ℚ × ℚ) (m1 m2 : ℚ) : Prop :=
  Real.sqrt (dist2 p q : ℝ) < Real.sqrt (m1 : ℝ) * 2 + Real.sqrt (m2 : ℝ) * 2

theorem botBotOverlap_iff (p q : ℚ × ℚ) (m1 m2 : ℚ) :
    botBotOverlap p q m1 m2 ↔ ratOverlapTest (dist2 p q) (max m1 0) (max m2 0) 2 2 := by
  unfold botBotOverlap
  rw [show (Real.sqrt (m1 : ℝ) * 2 + Real.sqrt (m2 : ℝ) * 2 : ℝ)
      = ((2 : ℚ) : ℝ) * Real.sqrt (m1 : ℝ) + ((2 : ℚ) : ℝ) * Real.sqrt (m2 : ℝ) by
    push_cast; ring]
  exact sqrt_lt_combo_rat (dist2 p q) m1 m2 2 2 (by norm_num) (by norm_num)

instance (p q : ℚ × ℚ) (m1 m2 : ℚ) : Decidable (botBotOverlap p q m1 m2) :=
  decidable_of_iff _ (botBotOverlap_iff p q m1 m2).symm

/-- The player-body-vs-pellet collision test (GameCanvas.tsx lines
1653-1659): distance strictly below `playerCell.size + pellet.size`, with
the pellet's fixed size 3 (entities.ts line 70) written as `1·√9`. -/
def pelletOverlap (p q : ℚ × ℚ) (mp : ℚ) : Prop :=
  Real.sqrt (dist2 p q : ℝ) < Real.sqrt (mp : ℝ) * 2 + 3

theorem pelletOverlap_iff (p q : ℚ × ℚ) (mp : ℚ) :
    pelletOverlap p q mp ↔ ratOverlapTest (dist2 p q) (max mp 0) (max (9 : ℚ) 0) 2 1 := by
  unfold pelletOverlap
  rw [show (Real.sqrt (mp : ℝ) * 2 + 3 : ℝ)
      = ((2 : ℚ) : ℝ) * Real.sqrt (mp : ℝ) + ((1 : ℚ) : ℝ) * Real.sqrt ((9 : ℚ) : ℝ) by
    rw [show ((9 : ℚ) : ℝ) = (3 : ℝ) ^ 2 by norm_num, Real.sqrt_sq (by norm_num)]
    push_cast; ring]
  exact sqrt_lt_combo_rat (dist2 p q) mp 9 2 1 (by norm_num) (by norm_num)

instance (p q : ℚ × ℚ) (mp : ℚ) : Decidable (pelletOverlap p q mp) :=
  decidable_of_iff _ (pelletOverlap_iff p q mp).symm

/-! ## Collision resolution (`GameCanvas.tsx`, second `checkCollisions`,
lines 1629-1924)

The eat-relevant phases are modelled: player bodies vs bots (lines
1763-1812), bot vs bot (lines 1841-1861) and the batched removal of eaten
bots (lines 1869-1872).  The pellet and power-up pickup phases that precede
them touch neither bot masses nor the removal lists of bots and player
cells beyond what is modelled for claim C9, and the same-player separation
phase (lines 1815-1839, modelled separately as `sepPush`) touches only
player positions.  As in the source, `addMass` mutates the attacker's mass
in place, immediately, while removals are pushed onto id lists and applied
only after the phases have run. -/

/-- A mass-bearing body (player body or bot): id, position, stored mass.
Its collision size is `√mass * 2`, re-derived after every mass change. -/
structure CellBody where
  id : ℕ
  pos : ℚ × ℚ
  mass : ℚ
deriving DecidableEq

/-- The mutable state threaded through one `checkCollisions` call. -/
structure TickState where
  players : List CellBody
  bots : List CellBody
  botsToRemove : List ℕ
  playerCellsToRemove : List ℕ
deriving DecidableEq

/-- Body of the player-vs-bot double loop (GameCanvas.tsx lines 1764-1812)
for player index `i` and bot index `j`: on overlap, if the player body
dominates it gains the bot's mass at once (`addMass`) and the bot's id is
pushed onto `botsToRemove`; else if the bot dominates, the bot gains the
player body's mass and the body's id is pushed onto
`playerCellsToRemove`. -/
def playerBotStep (st : TickState) (i j : ℕ) : TickState :=
  match st.players[i]?, st.bots[j]? with
  | some pc, some bt =>
    if playerBotOverlap pc.pos bt.pos pc.mass bt.mass then
      if canEat pc.mass bt.mass then
        { st with players := st.players.set i { pc with mass := pc.mass + bt.mass },
                  botsToRemove := st.botsToRemove ++ [bt.id] }
      else if canEat bt.mass pc.mass then
        { st with bots := st.bots.set j { bt with mass := bt.mass + pc.mass },
                  playerCellsToRemove := st.playerCellsToRemove ++ [pc.id] }
      else st
    else st
  | _, _ => st

/-- The full player-vs-bot pass: `playerCells.forEach(... currentBots.forEach(...))`. -/
def playerBotPhase (st : TickState) : TickState :=
  (List.range st.players.length).foldl
    (fun s i => (List.range st.bots.length).foldl (fun t j => playerBotStep t i j) s) st

/-- Body of the bot-vs-bot double loop (GameCanvas.tsx lines 1842-1861):
pairs with an already-removed participant (or a bot with itself) are
skipped; otherwise the mass-dominant bot eats the other at once. -/
def botBotStep (st : TickState) (i j : ℕ) : TickState :=
  match st.bots[i]?, st.bots[j]? with
  | some b1, some b2 =>
    if b1.id = b2.id ∨ b1.id ∈ st.botsToRemove ∨ b2.id ∈ st.botsToRemove then st
    else if botBotOverlap b1.pos b2.pos b1.mass b2.mass then
      if canEat b1.mass b2.mass then
        { st with bots := st.bots.set i { b1 with mass := b1.mass + b2.mass },
                  botsToRemove := st.botsToRemove ++ [b2.id] }
      else if canEat b2.mass b1.mass then
        { st with bots := st.bots.set j { b2 with mass := b2.mass + b1.mass },
                  botsToRemove := st.botsToRemove ++ [b1.id] }
      else st
    else st
  | _, _ => st

/-- The full bot-vs-bot pass. -/
def botBotPhase (st : TickState) : TickState :=
  (List.range st.bots.length).foldl
    (fun s i => (List.range st.bots.length).foldl (fun t j => botBotStep t i j) s) st

/-- Batched removal application (GameCanvas.tsx lines 1869-1872):
`bots.filter(bot => !botsToRemove.includes(bot.id))`. -/
def applyRemovals (st : TickState) : TickState :=
  { st with bots := st.bots.filter (fun b => !(st.botsToRemove.contains b.id)) }

/-- The eat-resolution portion of one `checkCollisions` tick: player-vs-bot
pass, then bot-vs-bot pass, then batched removal application. -/
def checkCollisionsBotPasses (st : TickState) : TickState :=
  applyRemovals (botBotPhase (playerBotPhase st))

/-- Modelled from the spec: the spec's resolution-ordering sentence — "all
pairwise tests are evaluated against the pre-tick snapshot of
positions/sizes (removals and mass changes are collected into removal-lists
and applied after the full pass, not interleaved)".  The bots scheduled for
removal by the player-vs-bot tests are exactly those that some player body
overlaps and mass-dominates with all masses read from the pre-tick
snapshot. -/
def snapshotBotRemovals (players bots : List CellBody) : List ℕ :=
  (bots.filter (fun bt => players.any (fun pc =>
    decide (playerBotOverlap pc.pos bt.pos pc.mass bt.mass) && canEat pc.mass bt.mass))).map
    (fun b => b.id)

theorem playerBotStep_first_eval (p b1 b2 : CellBody)
    (hO1 : playerBotOverlap p.pos b1.pos p.mass b1.mass)
    (hE1 : canEat p.mass b1.mass = true) :
    playerBotStep ⟨[p], [b1, b2], [], []⟩ 0 0 =
      ⟨[{ p with mass := p.mass + b1.mass }], [b1, b2], [b1.id], []⟩ := by
  simp only [playerBotStep, List.getElem?_cons_zero]
  rw [if_pos hO1, if_pos hE1]
  simp [List.set]

theorem playerBotStep_second_eval (p b1 b2 : CellBody)
    (hO2 : playerBotOverlap p.pos b2.pos (p.mass + b1.mass) b2.mass)
    (hE2 : canEat (p.mass + b1.mass) b2.mass = true) :
    playerBotStep ⟨[{ p with mass := p.mass + b1.mass }], [b1, b2], [b1.id], []⟩ 0 1 =
      ⟨[{ p with mass := p.mass + b1.mass + b2.mass }], [b1, b2], [b1.id, b2.id], []⟩ := by
  simp only [playerBotStep, List.getElem?_cons_zero, List.getElem?_cons_succ]
  rw [if_pos hO2, if_pos hE2]
  simp [List.set]

theorem playerBotPhase_pair_eval (p b1 b2 : CellBody)
    (hO1 : playerBotOverlap p.pos b1.pos p.mass b1.mass)
    (hE1 : canEat p.mass b1.mass = true)
    (hO2 : playerBotOverlap p.pos b2.pos (p.mass + b1.mass) b2.mass)
    (hE2 : canEat (p.mass + b1.mass) b2.mass = true) :
    playerBotPhase ⟨[p], [b1, b2], [], []⟩ =
      ⟨[{ p with mass := p.mass + b1.mass + b2.mass }], [b1, b2], [b1.id, b2.id], []⟩ := by
  have hr1 : List.range 1 = [0] := rfl
  have hr2 : List.range 2 = [0, 1] := rfl
  simp only [playerBotPhase, List.length_cons, List.length_nil, hr1, hr2,
    List.foldl_cons, List.foldl_nil]
  rw [playerBotStep_first_eval p b1 b2 hO1 hE1, playerBotStep_second_eval p b1 b2 hO2 hE2]

theorem snapshot_pair_eval (p b1 b2 : CellBody)
    (hO1 : playerBotOverlap p.pos b1.pos p.mass b1.mass)
    (hE1 : canEat p.mass b1.mass = true)
    (hNE2 : canEat p.mass b2.mass = false) :
    snapshotBotRemovals [p] [b1, b2] = [b1.id] := by
  unfold snapshotBotRemovals
  simp [List.filter, hE1, hNE2, decide_eq_true hO1]

theorem botBotStep_mono (st : TickState) (i j : ℕ) (x : ℕ)
    (hx : x ∈ st.botsToRemove) : x ∈ (botBotStep st i j).botsToRemove := by
  unfold botBotStep
  cases hbi : st.bots[i]? with
  | none => exact hx
  | some b1 =>
    cases hbj : st.bots[j]? with
    | none => exact hx
    | some b2 =>
      dsimp only
      split
      · exact hx
      · split
        · split
          · exact List.mem_append_left _ hx
          · split
            · exact List.mem_append_left _ hx
            · exact hx
        · exact hx

theorem foldl_mono_botsToRemove (g : TickState → ℕ → TickState)
    (hg : ∀ s a x, x ∈ s.botsToRemove → x ∈ (g s a).botsToRemove)
    (l : List ℕ) (st : TickState) (x : ℕ) (hx : x ∈ st.botsToRemove) :
    x ∈ (l.foldl g st).botsToRemove := by
  induction l generalizing st with
  | nil => exact hx
  | cons a rest ih => exact ih _ (hg st a x hx)

theorem botBotPhase_mono (st : TickState) (x : ℕ) (hx : x ∈ st.botsToRemove) :
    x ∈ (botBotPhase st).botsToRemove := by
  unfold botBotPhase
  refine foldl_mono_botsToRemove _ ?_ _ st x hx
  intro s a y hy
  exact foldl_mono_botsToRemove _ (fun t j z hz => botBotStep_mono t a j z hz) _ s y hy

theorem applyRemovals_excludes (st : TickState) (x : ℕ) (hx : x ∈ st.botsToRemove) :
    ∀ b ∈ (applyRemovals st).bots, b.id ≠ x := by
  intro b hb hbid
  unfold applyRemovals at hb
  simp only [List.mem_filter, Bool.not_eq_true'] at hb
  obtain ⟨-, hcond⟩ := hb
  have hmem : st.botsToRemove.contains b.id = true := by
    rw [List.contains, List.elem_eq_mem, decide_eq_true_eq]
    exact hbid ▸ hx
  rw [hmem] at hcond
  exact absurd hcond (by simp)

/-- Counterexample to claim C7 as stated: a player of mass 100 stacked with
bots of mass 50 and 95.  Against the pre-tick snapshot the player can eat
only the mass-50 bot (100 is not greater than 95 × 1.1 = 104.5), so the
spec-modelled snapshot pass schedules only bot 1 for removal; but the
source applies `addMass` immediately mid-pass, so after eating bot 1 the
player (now mass 150) also eats bot 2 — chained, order-dependent eating
within one tick. -/
theorem interleaved_mass_chained_eating_cex :
    (playerBotPhase ⟨[⟨0, (0, 0), 100⟩], [⟨1, (0, 0), 50⟩, ⟨2, (0, 0), 95⟩], [], []⟩).botsToRemove
      = [1, 2] ∧
    snapshotBotRemovals [⟨0, (0, 0), 100⟩] [⟨1, (0, 0), 50⟩, ⟨2, (0, 0), 95⟩] = [1] := by
  constructor
  · rw [playerBotPhase_pair_eval ⟨0, (0, 0), 100⟩ ⟨1, (0, 0), 50⟩ ⟨2, (0, 0), 95⟩
      ((playerBotOverlap_iff _ _ _ _).mpr (by norm_num [ratOverlapTest, dist2]))
      (by norm_num [canEat])
      ((playerBotOverlap_iff _ _ _ _).mpr (by norm_num [ratOverlapTest, dist2]))
      (by norm_num [canEat])]
  · exact snapshot_pair_eval ⟨0, (0, 0), 100⟩ ⟨1, (0, 0), 50⟩ ⟨2, (0, 0), 95⟩
      ((playerBotOverlap_iff _ _ _ _).mpr (by norm_num [ratOverlapTest, dist2]))
      (by norm_num [canEat]) (by norm_num [canEat])

/-- Claim C7 (amended): within one collision tick, removals are indeed
collected into id lists and applied only after the full pass (a bot whose
id is scheduled is absent from the surviving bot list), but mass changes
are applied immediately and interleaved mid-pass, not batched: whenever a
player body can eat the first of two overlapping bots and its
post-eat mass — but not its pre-tick mass — dominates the second, the pass
removes both bots, while the spec's pre-tick-snapshot semantics would
remove only the first. -/
theorem interleaved_mass_chained_eating (p b1 b2 : CellBody)
    (hO1 : playerBotOverlap p.pos b1.pos p.mass b1.mass)
    (hE1 : canEat p.mass b1.mass = true)
    (hO2 : playerBotOverlap p.pos b2.pos (p.mass + b1.mass) b2.mass)
    (hE2 : canEat (p.mass + b1.mass) b2.mass = true)
    (hNE2 : canEat p.mass b2.mass = false) :
    (playerBotPhase ⟨[p], [b1, b2], [], []⟩).botsToRemove = [b1.id, b2.id] ∧
    (∀ b ∈ (checkCollisionsBotPasses ⟨[p], [b1, b2], [], []⟩).bots, b.id ≠ b2.id) ∧
    snapshotBotRemovals [p] [b1, b2] = [b1.id] := by
  have hphase := playerBotPhase_pair_eval p b1 b2 hO1 hE1 hO2 hE2
  refine ⟨by rw [hphase], ?_, snapshot_pair_eval p b1 b2 hO1 hE1 hNE2⟩
  intro b hb
  have hmem : b2.id ∈ (botBotPhase (playerBotPhase ⟨[p], [b1, b2], [], []⟩)).botsToRemove :=
    botBotPhase_mono _ b2.id (by rw [hphase]; simp)
  exact applyRemovals_excludes (botBotPhase (playerBotPhase ⟨[p], [b1, b2], [], []⟩))
    b2.id hmem b hb

/-- Witness for C7's amended theorem at the counterexample input. -/
theorem interleaved_mass_chained_eating_witness :
    (playerBotPhase ⟨[⟨0, (0, 0), 100⟩], [⟨1, (0, 0), 50⟩, ⟨2, (0, 0), 95⟩], [], []⟩).botsToRemove
        = [1, 2] ∧
    (∀ b ∈ (checkCollisionsBotPasses
        ⟨[⟨0, (0, 0), 100⟩], [⟨1, (0, 0), 50⟩, ⟨2, (0, 0), 95⟩], [], []⟩).bots, b.id ≠ 2) ∧
    snapshotBotRemovals [⟨0, (0, 0), 100⟩] [⟨1, (0, 0), 50⟩, ⟨2, (0, 0), 95⟩] = [1] :=
  interleaved_mass_chained_eating ⟨0, (0, 0), 100⟩ ⟨1, (0, 0), 50⟩ ⟨2, (0, 0), 95⟩
    ((playerBotOverlap_iff _ _ _ _).mpr (by norm_num [ratOverlapTest, dist2]))
    (by norm_num [canEat])
    ((playerBotOverlap_iff _ _ _ _).mpr (by norm_num [ratOverlapTest, dist2]))
    (by norm_num [canEat])
    (by norm_num [canEat])

/-! ## Same-player separation (GameCanvas.tsx lines 1815-1839) -/

theorem dist2_nonneg (p q : ℚ × ℚ) : 0 ≤ dist2 p q := by
  unfold dist2; positivity

theorem dist2_eq_zero_iff (p q : ℚ × ℚ) : dist2 p q = 0 ↔ p = q := by
  unfold dist2
  constructor
  · intro h
    have h1 : (p.1 - q.1) ^ 2 = 0 := by nlinarith [sq_nonneg (p.1 - q.1), sq_nonneg (p.2 - q.2)]
    have h2 : (p.2 - q.2) ^ 2 = 0 := by nlinarith [sq_nonneg (p.1 - q.1), sq_nonneg (p.2 - q.2)]
    have e1 : p.1 = q.1 := sub_eq_zero.mp ((pow_eq_zero_iff two_ne_zero).mp h1)
    have e2 : p.2 = q.2 := sub_eq_zero.mp ((pow_eq_zero_iff two_ne_zero).mp h2)
    exact Prod.ext e1 e2
  · rintro rfl; ring

/-- The body of the same-player push-apart loop (GameCanvas.tsx lines
1817-1837), as an input/output relation on the two cells' positions
(rational inputs, real outputs).  `dist` is `Math.sqrt` of the squared
coordinate differences; the source multiplies `pushDistance` by
`Math.cos(angle)` and `Math.sin(angle)` with
`angle = Math.atan2(dy, dx)`, and `cos(atan2(dy,dx)) = dx/dist`,
`sin(atan2(dy,dx)) = dy/dist` whenever `(dx,dy) ≠ (0,0)`, while JavaScript
defines `atan2(0,0) = 0`, giving `(cos, sin) = (1, 0)` for coincident
cells.  The relation holds exactly when the loop's overlap branch fires
and assigns the pushed positions `q1`, `q2`. -/
def sepPush (p1 p2 : ℚ × ℚ) (s1 s2 : ℝ) (q1 q2 : ℝ × ℝ) : Prop :=
  let dx : ℝ := (p2.1 : ℝ) - (p1.1 : ℝ)
  let dy : ℝ := (p2.2 : ℝ) - (p1.2 : ℝ)
  let dist : ℝ := Real.sqrt ((dist2 p1 p2 : ℚ) : ℝ)
  let minDistance : ℝ := s1 + s2
  let pushDistance : ℝ := (minDistance - dist) / 2
  let ux : ℝ := if p1 = p2 then 1 else dx / dist
  let uy : ℝ := if p1 = p2 then 0 else dy / dist
  dist < minDistance ∧
  q1 = ((p1.1 : ℝ) - ux * pushDistance, (p1.2 : ℝ) - uy * pushDistance) ∧
  q2 = ((p2.1 : ℝ) + ux * pushDistance, (p2.2 : ℝ) + uy * pushDistance)

theorem div_sq_helper (dx dy dist pd : ℝ) (hdne : dist ≠ 0)
    (hsq : dist ^ 2 = dx ^ 2 + dy ^ 2) :
    (dx / dist * pd) ^ 2 + (dy / dist * pd) ^ 2 = pd ^ 2 := by
  have h1 : (dx / dist * pd) ^ 2 + (dy / dist * pd) ^ 2
      = (dx ^ 2 + dy ^ 2) / dist ^ 2 * pd ^ 2 := by ring
  rw [h1, ← hsq, div_self (pow_ne_zero 2 hdne), one_mul]

theorem mul_div_sq_helper (dx dy dist t : ℝ) (hdne : dist ≠ 0)
    (hsq : dist ^ 2 = dx ^ 2 + dy ^ 2) :
    (dx * (t / dist)) ^ 2 + (dy * (t / dist)) ^ 2 = t ^ 2 := by
  have h1 : (dx * (t / dist)) ^ 2 + (dy * (t / dist)) ^ 2
      = (dx ^ 2 + dy ^ 2) / dist ^ 2 * t ^ 2 := by ring
  rw [h1, ← hsq, div_self (pow_ne_zero 2 hdne), one_mul]

theorem sepPush_core (p1 p2 : ℚ × ℚ) (s1 s2 : ℝ) (q1 q2 : ℝ × ℝ)
    (h : sepPush p1 p2 s1 s2 q1 q2) :
    (q1.1 - (p1.1 : ℝ) = -(q2.1 - (p2.1 : ℝ)) ∧ q1.2 - (p1.2 : ℝ) = -(q2.2 - (p2.2 : ℝ))) ∧
    (q1.1 - (p1.1 : ℝ)) ^ 2 + (q1.2 - (p1.2 : ℝ)) ^ 2
      = ((s1 + s2 - Real.sqrt ((dist2 p1 p2 : ℚ) : ℝ)) / 2) ^ 2 ∧
    (q2.1 - (p2.1 : ℝ)) ^ 2 + (q2.2 - (p2.2 : ℝ)) ^ 2
      = ((s1 + s2 - Real.sqrt ((dist2 p1 p2 : ℚ) : ℝ)) / 2) ^ 2 ∧
    Real.sqrt ((q2.1 - q1.1) ^ 2 + (q2.2 - q1.2) ^ 2) = s1 + s2 := by
  unfold sepPush at h
  obtain ⟨hover, hq1, hq2⟩ := h
  by_cases hp : p1 = p2
  · subst hp
    simp only [reduceIte] at hq1 hq2
    have hz : ((dist2 p1 p1 : ℚ) : ℝ) = 0 := by
      rw [(dist2_eq_zero_iff p1 p1).mpr rfl]; norm_num
    rw [hz, Real.sqrt_zero] at hover hq1 hq2 ⊢
    have hs : (0 : ℝ) ≤ s1 + s2 := le_of_lt hover
    refine ⟨⟨?_, ?_⟩, ?_, ?_, ?_⟩
    · rw [hq1, hq2]; dsimp only; ring
    · rw [hq1, hq2]; dsimp only; ring
    · rw [hq1]; dsimp only; ring
    · rw [hq2]; dsimp only; ring
    · have e1 : q2.1 - q1.1 = s1 + s2 := by rw [hq1, hq2]; dsimp only; ring
      have e2 : q2.2 - q1.2 = 0 := by rw [hq1, hq2]; dsimp only; ring
      rw [e1, e2, show (s1 + s2) ^ 2 + (0 : ℝ) ^ 2 = (s1 + s2) ^ 2 by ring]
      exact Real.sqrt_sq hs
  · simp only [if_neg hp] at hq1 hq2
    have hd2pos : 0 < dist2 p1 p2 :=
      lt_of_le_of_ne (dist2_nonneg p1 p2) (fun h0 => hp ((dist2_eq_zero_iff p1 p2).mp h0.symm))
    have hdpos : (0 : ℝ) < Real.sqrt ((dist2 p1 p2 : ℚ) : ℝ) :=
      Real.sqrt_pos.mpr (by exact_mod_cast hd2pos)
    set dist := Real.sqrt ((dist2 p1 p2 : ℚ) : ℝ) with hdist
    have hdne : dist ≠ 0 := ne_of_gt hdpos
    have hsq : dist ^ 2 = ((p2.1 : ℝ) - (p1.1 : ℝ)) ^ 2 + ((p2.2 : ℝ) - (p1.2 : ℝ)) ^ 2 := by
      rw [hdist, Real.sq_sqrt (by positivity)]
      unfold dist2
      push_cast
      ring
    have hs : (0 : ℝ) ≤ s1 + s2 := le_of_lt (lt_trans hdpos hover)
    refine ⟨⟨?_, ?_⟩, ?_, ?_, ?_⟩
    · rw [hq1, hq2]; dsimp only; ring
    · rw [hq1, hq2]; dsimp only; ring
    · rw [hq1]; dsimp only
      linear_combination div_sq_helper ((p2.1 : ℝ) - (p1.1 : ℝ)) ((p2.2 : ℝ) - (p1.2 : ℝ))
        dist ((s1 + s2 - dist) / 2) hdne hsq
    · rw [hq2]; dsimp only
      linear_combination div_sq_helper ((p2.1 : ℝ) - (p1.1 : ℝ)) ((p2.2 : ℝ) - (p1.2 : ℝ))
        dist ((s1 + s2 - dist) / 2) hdne hsq
    · have e1 : q2.1 - q1.1 = ((p2.1 : ℝ) - (p1.1 : ℝ)) * ((s1 + s2) / dist) := by
        rw [hq1, hq2]; dsimp only; field_simp; ring
      have e2 : q2.2 - q1.2 = ((p2.2 : ℝ) - (p1.2 : ℝ)) * ((s1 + s2) / dist) := by
        rw [hq1, hq2]; dsimp only; field_simp; ring
      have harg : (((p2.1 : ℝ) - (p1.1 : ℝ)) * ((s1 + s2) / dist)) ^ 2
          + (((p2.2 : ℝ) - (p1.2 : ℝ)) * ((s1 + s2) / dist)) ^ 2 = (s1 + s2) ^ 2 :=
        mul_div_sq_helper _ _ dist (s1 + s2) hdne hsq
      rw [e1, e2, harg]
      exact Real.sqrt_sq hs

theorem foldl_self {α : Type} {β : Type} (l : List β) (s : α) :
    l.foldl (fun a _ => a) s = s := by
  induction l generalizing s with
  | nil => rfl
  | cons a rest ih => exact ih s

theorem noBots_tick_id (players : List CellBody) :
    checkCollisionsBotPasses ⟨players, [], [], []⟩ = ⟨players, [], [], []⟩ := by
  simp only [checkCollisionsBotPasses, playerBotPhase, botBotPhase, applyRemovals,
    List.length_nil, List.range_zero, List.foldl_nil, foldl_self, List.filter_nil]

/-- Claim C6: bodies of the same player are never removed through the eat
path — the eat-resolution passes pair player bodies only with bots, so a
tick whose bot list is empty removes nothing and changes nothing — and
whenever two same-player bodies overlap (distance below the sum of their
sizes, the `sepPush` branch condition), each is displaced by exactly half
the overlap `(s1+s2-dist)/2`, the two displacements are opposite
(symmetric push along the line connecting the centers), and the push
leaves the bodies at distance exactly `s1+s2`. -/
theorem same_player_no_eat_and_push_apart :
    (∀ players : List CellBody,
      checkCollisionsBotPasses ⟨players, [], [], []⟩ = ⟨players, [], [], []⟩) ∧
    (∀ (p1 p2 : ℚ × ℚ) (s1 s2 : ℝ) (q1 q2 : ℝ × ℝ), sepPush p1 p2 s1 s2 q1 q2 →
      (q1.1 - (p1.1 : ℝ) = -(q2.1 - (p2.1 : ℝ)) ∧ q1.2 - (p1.2 : ℝ) = -(q2.2 - (p2.2 : ℝ))) ∧
      (q1.1 - (p1.1 : ℝ)) ^ 2 + (q1.2 - (p1.2 : ℝ)) ^ 2
        = ((s1 + s2 - Real.sqrt ((dist2 p1 p2 : ℚ) : ℝ)) / 2) ^ 2 ∧
      (q2.1 - (p2.1 : ℝ)) ^ 2 + (q2.2 - (p2.2 : ℝ)) ^ 2
        = ((s1 + s2 - Real.sqrt ((dist2 p1 p2 : ℚ) : ℝ)) / 2) ^ 2 ∧
      Real.sqrt ((q2.1 - q1.1) ^ 2 + (q2.2 - q1.2) ^ 2) = s1 + s2) :=
  ⟨noBots_tick_id, fun p1 p2 s1 s2 q1 q2 h => sepPush_core p1 p2 s1 s2 q1 q2 h⟩

theorem sepPush_concrete :
    sepPush (0, 0) (3, 0) 2 2 (-1 / 2, 0) (7 / 2, 0) := by
  have h9 : Real.sqrt ((dist2 ((0 : ℚ), (0 : ℚ)) ((3 : ℚ), (0 : ℚ)) : ℚ) : ℝ) = 3 := by
    rw [show ((dist2 ((0 : ℚ), (0 : ℚ)) ((3 : ℚ), (0 : ℚ)) : ℚ) : ℝ) = (3 : ℝ) ^ 2 by
      norm_num [dist2], Real.sqrt_sq (by norm_num)]
  unfold sepPush
  dsimp only
  rw [h9]
  have hne : ((0 : ℚ), (0 : ℚ)) ≠ ((3 : ℚ), (0 : ℚ)) := by
    intro h
    exact absurd (congrArg Prod.fst h) (by norm_num)
  rw [if_neg hne, if_neg hne]
  refine ⟨by norm_num, ?_, ?_⟩ <;> (rw [Prod.ext_iff]; constructor <;> norm_num)

/-- Witness for C6: a no-bot tick on a concrete body, and the concrete
overlapping pair at (0,0) and (3,0) with sizes 2 and 2, pushed to
(-1/2,0) and (7/2,0). -/
theorem same_player_no_eat_and_push_apart_witness :
    checkCollisionsBotPasses ⟨[⟨5, (1, 1), 25⟩], [], [], []⟩ = ⟨[⟨5, (1, 1), 25⟩], [], [], []⟩ ∧
    Real.sqrt ((((7 / 2, 0) : ℝ × ℝ).1 - ((-1 / 2, 0) : ℝ × ℝ).1) ^ 2 +
      (((7 / 2, 0) : ℝ × ℝ).2 - ((-1 / 2, 0) : ℝ × ℝ).2) ^ 2) = 2 + 2 :=
  ⟨same_player_no_eat_and_push_apart.1 [⟨5, (1, 1), 25⟩],
   (same_player_no_eat_and_push_apart.2 (0, 0) (3, 0) 2 2 (-1 / 2, 0) (7 / 2, 0)
     sepPush_concrete).2.2.2⟩

/-! ## Main-cell promotion (`entities.ts` lines 936-948, `GameCanvas.tsx`
lines 1890-1923) -/

/-- A timed effect record (`SpeedBoost`): start time, duration, multiplier. -/
structure SpeedBoostFx where
  startTime : ℚ
  duration : ℚ
  multiplier : ℚ
deriving DecidableEq

/-- An eating/split-scale effect record: scales and progress. -/
structure AnimFx where
  startScale : ℚ
  targetScale : ℚ
  progress : ℚ
  duration : ℚ
deriving DecidableEq

/-- The fields of a `PlayerCell` read or written by
`promoteSplitCellToMain` (entities.ts lines 936-948), together with fields
that promotion leaves untouched (`playerName`, `splitLevel` and the
cooldowns). -/
structure MainCell where
  id : ℕ
  pos : ℚ × ℚ
  mass : ℚ
  size : ℚ
  target : Option (ℚ × ℚ)
  eatingAnimations : List AnimFx
  splitScaleAnimations : List AnimFx
  speedBoosts : List SpeedBoostFx
  pointMultipliers : List SpeedBoostFx
  playerName : ℕ
  splitLevel : ℕ
  splitCooldown : ℚ
  fusionCooldown : ℚ
deriving DecidableEq

/-- Source `PlayerCell.promoteSplitCellToMain(splitCell)` (entities.ts lines
936-948): copies the split cell's id, position, mass, size, target and the
four effect lists onto the main cell; everything else keeps the main
cell's values. -/
def promoteSplitCellToMain (main splitCell : MainCell) : MainCell :=
  { main with
    id := splitCell.id
    pos := splitCell.pos
    mass := splitCell.mass
    size := splitCell.size
    target := splitCell.target
    eatingAnimations := splitCell.eatingAnimations
    splitScaleAnimations := splitCell.splitScaleAnimations
    speedBoosts := splitCell.speedBoosts
    pointMultipliers := splitCell.pointMultipliers }

/-- The main-cell-eaten branch of the removal handling (GameCanvas.tsx
lines 1895-1911): with split cells remaining, the first split cell is
spliced out and promoted; with none, the game is over (`none`). -/
def handleMainCellEaten (main : MainCell) (splitCells : List MainCell) :
    Option (MainCell × List MainCell) :=
  match splitCells with
  | [] => none
  | c :: rest => some (promoteSplitCellToMain main c, rest)

/-- Counterexample to claim C8 as stated: `promoteSplitCellToMain`
overwrites the main cell's `id` with the promoted split cell's id
(`this.id = splitCell.id`), so the player's external id is not preserved
across the promotion. -/
theorem promote_changes_external_id_cex :
    (promoteSplitCellToMain
      ⟨0, (1, 1), 30, 10, none, [], [], [], [], 7, 1, 0, 5000⟩
      ⟨1, (2, 2), 15, 7, none, [], [], [], [], 7, 0, 0, 0⟩).id = 1 ∧ (1 : ℕ) ≠ 0 :=
  ⟨rfl, by decide⟩

/-- Claim C8 (amended): if the main player body is eaten while split cells
remain, the first split cell is promoted: the promoted state carries over
the split cell's position, mass, size, movement target and active
power-up effect lists, and the remaining split-cell list drops that cell;
but the player's external `id` becomes the promoted split cell's id — it
is not preserved.  The player name, split level and cooldowns stay the
main cell's. -/
theorem promote_carries_over_state (main c : MainCell) (rest : List MainCell)
    (out : MainCell × List MainCell)
    (h : handleMainCellEaten main (c :: rest) = some out) :
    out.1.id = c.id ∧ out.1.pos = c.pos ∧ out.1.mass = c.mass ∧ out.1.size = c.size ∧
    out.1.target = c.target ∧ out.1.speedBoosts = c.speedBoosts ∧
    out.1.pointMultipliers = c.pointMultipliers ∧
    out.1.eatingAnimations = c.eatingAnimations ∧
    out.1.playerName = main.playerName ∧ out.1.splitLevel = main.splitLevel ∧
    out.2 = rest := by
  unfold handleMainCellEaten at h
  simp only [Option.some.injEq] at h
  subst h
  exact ⟨rfl, rfl, rfl, rfl, rfl, rfl, rfl, rfl, rfl, rfl, rfl⟩

/-- Witness for C8's amended theorem at a concrete promotion. -/
theorem promote_carries_over_state_witness :
    (promoteSplitCellToMain
        ⟨0, (1, 1), 30, 10, none, [], [], [], [], 7, 1, 0, 5000⟩
        ⟨1, (2, 2), 15, 7, none, [], [], [], [], 7, 0, 0, 0⟩,
      ([] : List MainCell)).1.id = 1 := by
  have h := promote_carries_over_state
    ⟨0, (1, 1), 30, 10, none, [], [], [], [], 7, 1, 0, 5000⟩
    ⟨1, (2, 2), 15, 7, none, [], [], [], [], 7, 0, 0, 0⟩ []
    (promoteSplitCellToMain
        ⟨0, (1, 1), 30, 10, none, [], [], [], [], 7, 1, 0, 5000⟩
        ⟨1, (2, 2), 15, 7, none, [], [], [], [], 7, 0, 0, 0⟩, [])
    rfl
  exact h.1

/-! ## Pellet lifecycle (`entities.ts` `FoodPellet`, lines 63-110;
`GameCanvas.tsx` pellet collision and removal, lines 1650-1672 and
1864-1867) -/

/-- A `FoodPellet`: id, position, and the private `respawnTime` countdown
(0 when active).  Its collision size is the fixed constant 3. -/
structure FoodPellet where
  id : ℕ
  pos : ℚ × ℚ
  respawnTime : ℚ
deriving DecidableEq

/-- Source `FoodPellet.getEaten()` (entities.ts lines 103-105): start the 30000 ms
respawn countdown; the pellet object itself persists. -/
def FoodPellet.getEaten (p : FoodPellet) : FoodPellet :=
  { p with respawnTime := 30000 }

/-- Source `FoodPellet.update(deltaTime)` (entities.ts lines 73-84): while
respawning, count the timer down; when it reaches 0, reposition at
`Math.random() * 3000` on each axis (the two `Math.random()` draws are
passed in as oracle inputs `rx`, `ry` in [0,1)) and clear the timer. -/
def FoodPellet.update (dt rx ry : ℚ) (p : FoodPellet) : FoodPellet :=
  if 0 < p.respawnTime then
    if p.respawnTime - dt ≤ 0 then
      { p with pos := (rx * 3000, ry * 3000), respawnTime := 0 }
    else
      { p with respawnTime := p.respawnTime - dt }
  else
    p

/-- State threaded through the player-vs-pellet collision pass. -/
structure PelletPhaseState where
  players : List CellBody
  pellets : List FoodPellet
  pelletsToRemove : List ℕ
deriving DecidableEq

/-- Body of the player-vs-pellet double loop (GameCanvas.tsx lines
1650-1672): on overlap — with no `canEat` gate — the player body gains the
pellet's fixed mass 3, `getEaten()` starts the pellet's respawn timer, and
the pellet's id is pushed onto `pelletsToRemove`. -/
def playerPelletStep (st : PelletPhaseState) (i j : ℕ) : PelletPhaseState :=
  match st.players[i]?, st.pellets[j]? with
  | some pc, some fp =>
    if pelletOverlap pc.pos fp.pos pc.mass then
      { st with players := st.players.set i { pc with mass := pc.mass + 3 },
                pellets := st.pellets.set j fp.getEaten,
                pelletsToRemove := st.pelletsToRemove ++ [fp.id] }
    else st
  | _, _ => st

/-- The full player-vs-pellet pass followed by the batched pellet removal
(GameCanvas.tsx lines 1864-1867):
`pellets.filter(pellet => !pelletsToRemove.includes(pellet.id))` —
eaten pellets are filtered out of the world list.  Pellets are created
only during session initialization (GameCanvas.tsx lines 1153-1175), so a
removed pellet is never updated or re-added. -/
def pelletPhase (st : PelletPhaseState) : PelletPhaseState :=
  let looped := (List.range st.players.length).foldl
    (fun s i => (List.range st.pellets.length).foldl (fun t j => playerPelletStep t i j) s) st
  { looped with
    pellets := looped.pellets.filter (fun fp => !(looped.pelletsToRemove.contains fp.id)) }

/-- Claim C9, evaluated at the failing input: a pellet at the player's
position is eaten — `getEaten()` starts its 30 s respawn timer — but the
tick then filters it out of the world pellet list entirely, so the pellet
is destroyed rather than kept for respawn: the resulting pellet list is
empty (and, pellets being created only at session start, the pellet can
never become collidable again). -/
theorem pellet_removed_from_world_on_eat :
    (pelletPhase ⟨[⟨0, (0, 0), 25⟩], [⟨7, (0, 0), 0⟩], []⟩).pellets = [] ∧
    (pelletPhase ⟨[⟨0, (0, 0), 25⟩], [⟨7, (0, 0), 0⟩], []⟩).pelletsToRemove = [7] := by
  have hov : pelletOverlap ((0 : ℚ), (0 : ℚ)) ((0 : ℚ), (0 : ℚ)) 25 :=
    (pelletOverlap_iff _ _ _).mpr (by norm_num [ratOverlapTest, dist2])
  have hstep : playerPelletStep ⟨[⟨0, (0, 0), 25⟩], [⟨7, (0, 0), 0⟩], []⟩ 0 0 =
      ⟨[⟨0, (0, 0), 28⟩], [⟨7, (0, 0), 30000⟩], [7]⟩ := by
    simp only [playerPelletStep, List.getElem?_cons_zero]
    rw [if_pos hov]
    norm_num [List.set, FoodPellet.getEaten]
  have hphase : pelletPhase ⟨[⟨0, (0, 0), 25⟩], [⟨7, (0, 0), 0⟩], []⟩ =
      ⟨[⟨0, (0, 0), 28⟩], [], [7]⟩ := by
    simp only [pelletPhase, List.length_cons, List.length_nil,
      show List.range 1 = [0] from rfl, List.foldl_cons, List.foldl_nil, hstep]
    simp [List.filter, List.contains]
  exact ⟨by rw [hphase], by rw [hphase]⟩
